import Mathlib

/-!
Shallow embedding of `transitions/core.py`: a finite-state-machine engine with
named states, triggerable events, guard conditions and lifecycle callbacks.

Modelling conventions:
* Callback and guard identifiers are strings, resolved against the bound model
  object.  The model's behaviour is abstracted by a `PyModel` oracle giving,
  for each identifier, the boolean a guard call returns (`guardVal`) and
  whether calling the identifier raises an exception (`raises`).
* Side effects observable to the caller are recorded in an explicit trace of
  events (`Evt`): guard invocations, callback invocations, current-state
  assignment, `EventData.update`, and `EventData` construction.
* Python exception semantics (side effects before the raise persist, the
  exception propagates to the caller) are modelled by the result type `Res`,
  which carries the context both on success and on error.
* Python dicts keyed by strings are modelled as association lists;
  `dictInsert` models `d[k] = v` and `dictAppend` models the
  `defaultdict(list)` idiom `d[k].append(t)` used for `Event.transitions`.
* Error messages are kept close to the source but without punctuation that is
  irrelevant to the claims.
-/

/-- Observable events recorded while the engine runs: a guard call with the
value it returned, a model callback call, a `Machine.set_state` assignment, an
`EventData.update`, and the construction of an `EventData`. -/
inductive Evt where
  | guard (name : String) (result : Bool)
  | call (name : String)
  | setSt (name : String)
  | update (name : String)
  | newED (stateName : String)
deriving Repr, DecidableEq

/-- Python exceptions that the engine can surface: `MachineError`,
`ValueError` (from `Machine.get_state`), `AttributeError` (missing attribute),
and an arbitrary exception raised inside a user callback. -/
inductive Err where
  | machineError (msg : String)
  | valueError (msg : String)
  | attributeError (msg : String)
  | callbackError (name : String)
deriving Repr, DecidableEq

/-- Oracle describing the bound model object: what each guard identifier
returns when called, and whether calling an identifier raises. -/
structure PyModel where
  guardVal : String → Bool
  raises : String → Bool

/-- `State` from core.py: a name and ordered lists of enter/exit callback
identifiers. -/
structure State where
  name : String
  on_enter : List String
  on_exit : List String
deriving Repr, DecidableEq

/-- `Transition` from core.py: source and destination state names, guard
condition identifiers, and before/after callback identifiers (all already
`listify`-normalised, as in `Transition.__init__`). -/
structure Transition where
  source : String
  dest : String
  conditions : List String
  before : List String
  after : List String
deriving Repr, DecidableEq

/-- `Event` from core.py: a name and the `defaultdict(list)` mapping
source-state-name to the ordered list of candidate Transitions.  The back
reference to the machine is passed explicitly to `Event.trigger` via `Ctx`. -/
structure Event where
  name : String
  transitions : List (String × List Transition)
deriving Repr, DecidableEq

/-- `Machine` from core.py: the state registry, the event registry, the
current state, and the model's mirrored `state` attribute (`self.model.state`).
The `send_event` flag is stored by the source but never read, so it is
omitted. -/
structure Machine where
  states : List (String × State)
  events : List (String × Event)
  current_state : State
  model_state : String
deriving Repr, DecidableEq

/-- Mutable context threaded through a trigger invocation: the machine
(its `current_state` and, through it, the model's `state` attribute), the
`state` field of the current `EventData`, and the observable trace. -/
structure Ctx where
  machine : Machine
  ed_state : State
  trace : List Evt
deriving Repr, DecidableEq

/-- Append one observable event to the trace. -/
def Ctx.log (s : Ctx) (e : Evt) : Ctx :=
  { s with trace := s.trace ++ [e] }

/-- Result of a stateful computation with Python exception semantics: the
context is available both on normal return and on a raised exception (side
effects before the raise persist). -/
inductive Res (α : Type) where
  | ok (val : α) (ctx : Ctx)
  | err (e : Err) (ctx : Ctx)
deriving Repr, DecidableEq

/-- `getattr(model, n)()` for a plain callback: the invocation is recorded,
then either the callback raises or it returns. -/
def callModel (env : PyModel) (n : String) (s : Ctx) : Res Unit :=
  let s := s.log (.call n)
  if env.raises n then .err (.callbackError n) s else .ok () s

/-- Run a list of callback identifiers on the model in order, stopping at the
first one that raises (the loops in `State.enter`, `State.exit` and the
before/after loops of `Transition.execute`). -/
def runCallbacks (env : PyModel) : List String → Ctx → Res Unit
  | [], s => .ok () s
  | n :: rest, s =>
    match callModel env n s with
    | .err e s => .err e s
    | .ok _ s => runCallbacks env rest s

/-- `State.enter`: invoke every `on_enter` identifier on the model in order. -/
def State.enter (env : PyModel) (st : State) : Ctx → Res Unit :=
  runCallbacks env st.on_enter

/-- `State.exit`: invoke every `on_exit` identifier on the model in order. -/
def State.exit (env : PyModel) (st : State) : Ctx → Res Unit :=
  runCallbacks env st.on_exit

/-- The guard loop of `Transition.execute`: call each condition identifier on
the model in order and return `false` at the first one returning false
(`for c in self.conditions: if not getattr(event_data.model, c)(): return
False`).  A guard call that raises propagates the exception. -/
def checkConditions (env : PyModel) : List String → Ctx → Res Bool
  | [], s => .ok true s
  | c :: rest, s =>
    let s := s.log (.guard c (env.guardVal c))
    if env.raises c then .err (.callbackError c) s
    else if env.guardVal c then checkConditions env rest s
    else .ok false s

/-- Lookup in the state registry; `Machine.get_state` raises `ValueError`
when the name is not registered. -/
def lookupState (states : List (String × State)) (name : String) : Except Err State :=
  match states.lookup name with
  | none => .error (.valueError ("State " ++ name ++ " is not a registered state."))
  | some st => .ok st

/-- `Machine.get_state`. -/
def Machine.get_state (m : Machine) (state : String) : Except Err State :=
  lookupState m.states state

/-- `Machine.is_state`: whether the current state's name matches the passed
name.  The model predicate `is_S()` installed at construction is
`is_state S` with `S` bound at registration time. -/
def Machine.is_state (m : Machine) (state : String) : Bool :=
  m.current_state.name == state

/-- `Machine.set_state`: accepts a state name (resolved through `get_state`)
or a `State` instance, assigns it as current, and mirrors its name onto the
model's `state` attribute. -/
def Machine.set_state (m : Machine) (state : String ⊕ State) : Except Err Machine :=
  match state with
  | .inl name =>
    match m.get_state name with
    | .error e => .error e
    | .ok st => .ok { m with current_state := st, model_state := st.name }
  | .inr st => .ok { m with current_state := st, model_state := st.name }

/-- `machine.set_state(self.dest)` inside `Transition.execute`, recording the
assignment in the trace. -/
def setStateM (name : String) (s : Ctx) : Res Unit :=
  match s.machine.set_state (.inl name) with
  | .error e => .err e s
  | .ok m' => .ok () (({ s with machine := m' }).log (.setSt m'.current_state.name))

/-- `event_data.update()`: refresh the `EventData.state` field to the
machine's current state, recording the refresh in the trace. -/
def updateED (s : Ctx) : Res Unit :=
  .ok () (({ s with ed_state := s.machine.current_state }).log (.update s.machine.current_state.name))

/-- `machine.get_state(name)` inside a trigger invocation. -/
def getStateM (name : String) (s : Ctx) : Res State :=
  match s.machine.get_state name with
  | .error e => .err e s
  | .ok st => .ok st s

/-- `Transition.execute`: evaluate the guards (short-circuiting); if all pass,
run the before callbacks, exit the source state, set the machine's current
state to `dest`, refresh the event data, enter the destination state, run the
after callbacks, and report success. -/
def Transition.execute (env : PyModel) (t : Transition) (s : Ctx) : Res Bool :=
  match checkConditions env t.conditions s with
  | .err e s => .err e s
  | .ok false s => .ok false s
  | .ok true s =>
  match runCallbacks env t.before s with
  | .err e s => .err e s
  | .ok _ s =>
  match getStateM t.source s with
  | .err e s => .err e s
  | .ok src s =>
  match State.exit env src s with
  | .err e s => .err e s
  | .ok _ s =>
  match setStateM t.dest s with
  | .err e s => .err e s
  | .ok _ s =>
  match updateED s with
  | .err e s => .err e s
  | .ok _ s =>
  match getStateM t.dest s with
  | .err e s => .err e s
  | .ok dst s =>
  match State.enter env dst s with
  | .err e s => .err e s
  | .ok _ s =>
  match runCallbacks env t.after s with
  | .err e s => .err e s
  | .ok _ s => .ok true s

/-- The candidate loop of `Event.trigger`: serially execute the filed
transitions, halting as soon as one reports success. -/
def tryTransitions (env : PyModel) : List Transition → Ctx → Res Bool
  | [], s => .ok false s
  | t :: rest, s =>
    match Transition.execute env t s with
    | .err e s => .err e s
    | .ok true s => .ok true s
    | .ok false s => tryTransitions env rest s

/-- `Event.trigger`: resolve the current state name; raise `MachineError` if
no transition list is filed under it; otherwise build one `EventData` (whose
`state` field starts as the current state) and try the filed transitions in
order. -/
def Event.trigger (env : PyModel) (e : Event) (s : Ctx) : Res Bool :=
  let state_name := s.machine.current_state.name
  match e.transitions.lookup state_name with
  | none =>
    .err (.machineError ("Cannot trigger event " ++ e.name ++ " from state " ++ state_name)) s
  | some ts =>
    let s := ({ s with ed_state := s.machine.current_state }).log (.newED state_name)
    tryTransitions env ts s

/-- `listify` applied to an optional string-or-list argument, as in
`Transition.__init__`: `None` becomes `[]`, a string becomes a singleton, a
list is used as-is. -/
def listifyOpt : Option (String ⊕ List String) → List String
  | none => []
  | some (.inl v) => [v]
  | some (.inr vs) => vs

/-- `Transition.__init__` with raw (string, list or absent) condition and
callback arguments. -/
def Transition.make (source dest : String)
    (conditions before after : Option (String ⊕ List String)) : Transition :=
  { source := source, dest := dest, conditions := listifyOpt conditions,
    before := listifyOpt before, after := listifyOpt after }

/-- Python dict assignment `d[k] = v` on an association list: replace the
entry for `k` if present, else append a new entry. -/
def dictInsert {α : Type} : List (String × α) → String → α → List (String × α)
  | [], k, v => [(k, v)]
  | (k', v') :: rest, k, v =>
    if k' == k then (k, v) :: rest else (k', v') :: dictInsert rest k v

/-- The `defaultdict(list)` idiom `d[k].append(t)` used by
`Event.add_transition`: append to the entry for `k`, creating it if absent. -/
def dictAppend : List (String × List Transition) → String → Transition →
    List (String × List Transition)
  | [], k, t => [(k, [t])]
  | (k', v) :: rest, k, t =>
    if k' == k then (k', v ++ [t]) :: rest else (k', v) :: dictAppend rest k t

/-- `Event.add_transition`: file the transition under its source-state-name
key, appended to the end of the existing list for that key. -/
def Event.add_transition (e : Event) (t : Transition) : Event :=
  { e with transitions := dictAppend e.transitions t.source t }

/-- Resolve the `source` argument of `Machine.add_transition`: the literal
wildcard expands to all currently registered state names
(`self.states.keys()`), a single name becomes a one-element list, a list is
used as-is. -/
def resolveSource (m : Machine) (source : String ⊕ List String) : List String :=
  match source with
  | .inl v => if v == "*" then m.states.map Prod.fst else [v]
  | .inr vs => vs

/-- The transitions a single `Machine.add_transition` call creates: one per
resolved source name. -/
def newTransitions (m : Machine) (source : String ⊕ List String) (dest : String)
    (conditions before after : Option (String ⊕ List String)) : List Transition :=
  (resolveSource m source).map (fun s => Transition.make s dest conditions before after)

/-- `Machine.add_transition`: ensure the trigger's `Event` exists (creating it
and binding the trigger method on the model the first time the name is used),
then create one `Transition` per resolved source name and file each under the
event.  The binding of the trigger callable onto the model is captured by
`Event.trigger` itself. -/
def Machine.add_transition (m : Machine) (trigger : String)
    (source : String ⊕ List String) (dest : String)
    (conditions before after : Option (String ⊕ List String)) : Machine :=
  let e0 : Event :=
    match m.events.lookup trigger with
    | some e => e
    | none => { name := trigger, transitions := [] }
  let e1 := (newTransitions m source dest conditions before after).foldl
    Event.add_transition e0
  { m with events := dictInsert m.events trigger e1 }

/-- A transition descriptor passed to the `Machine` constructor: the named
arguments of one `add_transition` call. -/
structure TransDesc where
  trigger : String
  source : String ⊕ List String
  dest : String
  conditions : Option (String ⊕ List String)
  before : Option (String ⊕ List String)
  after : Option (String ⊕ List String)
deriving Repr

/-- The state-registration loop of `Machine.__init__`: each descriptor is a
bare name (turned into a generic `State`) or a prebuilt `State`, stored under
its name; the `is_<name>` predicate installed on the model is captured by
`Machine.is_state`. -/
def buildStates (descs : List (String ⊕ State)) : List (String × State) :=
  descs.foldl
    (fun d sd =>
      let st : State :=
        match sd with
        | .inl n => { name := n, on_enter := [], on_exit := [] }
        | .inr s => s
      dictInsert d st.name st)
    []

/-- `Machine.__init__`: register the states, set the initial state through
the `set_state` logic (failing when a name is unregistered), then apply the
transition descriptors.  The unused `send_event` flag is omitted. -/
def Machine.init (stateDescs : List (String ⊕ State)) (initial : String ⊕ State)
    (transDescs : List TransDesc) : Except Err Machine :=
  let states := buildStates stateDescs
  let stE : Except Err State :=
    match initial with
    | .inl name => lookupState states name
    | .inr st => .ok st
  match stE with
  | .error e => .error e
  | .ok st =>
    let m0 : Machine :=
      { states := states, events := [], current_state := st, model_state := st.name }
    .ok (transDescs.foldl
      (fun m td => m.add_transition td.trigger td.source td.dest td.conditions td.before td.after)
      m0)

/-- Python `name.split(sep)` for a one-character separator, by structural
recursion on the character list: always returns a nonempty list of fields. -/
def pySplitChar (sep : Char) : List Char → List String
  | [] => [""]
  | c :: rest =>
    let r := pySplitChar sep rest
    if c = sep then "" :: r
    else (String.mk (c :: (r.headD "").data)) :: r.tail

/-- `name.split('_')` from `Machine.__getattr__`. -/
def pySplit (name : String) : List String :=
  pySplitChar '_' name.data

/-- Python `s.startswith(p)`. -/
def pyStartsWith (s p : String) : Bool :=
  p.data.isPrefixOf s.data

/-- Python `'_'.join(parts)`. -/
def joinUnderscore : List String → String
  | [] => ""
  | [s] => s
  | s :: rest => s ++ "_" ++ joinUnderscore rest

/-- The attributes an `Event` instance actually has: its instance fields and
the methods defined by `class Event` in core.py.  Note that `add_callback` is
not among them, although `Machine.__getattr__` reads it. -/
def Event.attrNames : List String :=
  ["name", "machine", "transitions", "add_transition", "trigger"]

/-- Possible values produced by `Machine.__getattr__` when it does not raise:
a would-be callback-registration function bound to an `Event`
(`functools` binding of `event.add_callback` to a kind), a registration
function bound to a `State` (binding of `state.add_callback` to a kind), or
Python `None` from the implicit fall-through of a function with no `return`. -/
inductive AttrValue where
  | regEvent (eventName kind : String)
  | regState (stateName kind : String)
  | pyNone
deriving Repr, DecidableEq

/-- `Machine.__getattr__`: split the name on underscores.  If the first term
is `before` or `after`, resolve the rest as a trigger name (the source also
prints it — console output is not modelled); raise `MachineError` when the
trigger is unregistered, and otherwise evaluate
`self.events[name].add_callback`, an attribute read on the `Event` instance —
which raises `AttributeError` because `class Event` defines no such attribute.
If the name starts with `on_enter` or `on_exit`, resolve the rest as a state
(raising `ValueError` when unregistered) and return the binding of
`state.add_callback` to the second term.  Otherwise fall through, returning
Python `None`. -/
def Machine.getattrFallback (m : Machine) (name : String) : Except Err AttrValue :=
  let terms := pySplit name
  if terms.headD "" == "before" || terms.headD "" == "after" then
    let ename := joinUnderscore (terms.drop 1)
    match m.events.lookup ename with
    | none => .error (.machineError ("Event " ++ ename ++ " is not registered."))
    | some _ =>
      if Event.attrNames.contains "add_callback" then
        .ok (.regEvent ename (terms.headD ""))
      else
        .error (.attributeError "add_callback")
  else if pyStartsWith name "on_enter" || pyStartsWith name "on_exit" then
    match m.get_state (joinUnderscore (terms.drop 2)) with
    | .error e => .error e
    | .ok st => .ok (.regState st.name (terms.getD 1 ""))
  else
    .ok .pyNone

/-- The guard identifiers actually invoked by the short-circuiting guard loop:
every guard up to and including the first one returning false. -/
def calledGuards (env : PyModel) : List String → List String
  | [] => []
  | c :: rest => if env.guardVal c then c :: calledGuards env rest else [c]

/-- Trace left by a transition whose guard evaluation returns false. -/
def failTrace (env : PyModel) (t : Transition) : List Evt :=
  (calledGuards env t.conditions).map (fun c => Evt.guard c (env.guardVal c))

/-- Traces left by a list of candidate transitions that all fail their
guards. -/
def failTraces (env : PyModel) : List Transition → List Evt
  | [] => []
  | t :: ts => failTrace env t ++ failTraces env ts

/-- Full trace of a successful `Transition.execute`: guard calls (all true),
before callbacks, source exit callbacks, the state assignment, the event-data
refresh, destination enter callbacks, after callbacks. -/
def execTrace (t : Transition) (src dst : State) : List Evt :=
  t.conditions.map (fun c => Evt.guard c true) ++ t.before.map Evt.call ++
    src.on_exit.map Evt.call ++ [Evt.setSt dst.name, Evt.update dst.name] ++
    dst.on_enter.map Evt.call ++ t.after.map Evt.call

/-- A transition whose guard evaluation reports false (without raising). -/
def guardsFail (env : PyModel) (t : Transition) : Prop :=
  (∀ c ∈ t.conditions, env.raises c = false) ∧ t.conditions.all env.guardVal = false

instance (env : PyModel) (t : Transition) : Decidable (guardsFail env t) :=
  inferInstanceAs (Decidable
    ((∀ c ∈ t.conditions, env.raises c = false) ∧ t.conditions.all env.guardVal = false))

/-- Registry well-formedness: every state is stored under its own name, as
`Machine.__init__` guarantees (`self.states[s.name] = s`). -/
def statesWF (m : Machine) : Prop :=
  ∀ p ∈ m.states, (Prod.snd p).name = Prod.fst p

instance (m : Machine) : Decidable (statesWF m) :=
  inferInstanceAs (Decidable (∀ p ∈ m.states, (Prod.snd p).name = Prod.fst p))

/-- The transitions an event has filed under a source-state name (empty when
the `defaultdict` has no entry). -/
def Event.transitionsFor (e : Event) (n : String) : List Transition :=
  (e.transitions.lookup n).getD []

/-- The transitions the machine has filed under a trigger for a source-state
name. -/
def Machine.eventTransitionsFor (m : Machine) (trigger n : String) : List Transition :=
  ((m.events.lookup trigger).map (fun e => e.transitionsFor n)).getD []

/-- Worked example from the spec: the `solid` state, with one exit
callback. -/
def solidSt : State := { name := "solid", on_enter := [], on_exit := ["ex_s"] }

/-- Worked example: the `liquid` state, with one enter callback. -/
def liquidSt : State := { name := "liquid", on_enter := ["en_l"], on_exit := [] }

/-- Worked example: the `gas` state. -/
def gasSt : State := { name := "gas", on_enter := [], on_exit := [] }

/-- Worked example: the `melt` transition `solid` to `liquid` with a before
and an after callback. -/
def meltT : Transition :=
  { source := "solid", dest := "liquid", conditions := [], before := ["b1"], after := ["a1"] }

/-- Worked example: an `evaporate` candidate guarded by `is_cold`. -/
def evapColdT : Transition :=
  { source := "liquid", dest := "gas", conditions := ["is_cold"], before := ["bc"], after := ["ac"] }

/-- Worked example: an `evaporate` candidate guarded by `is_hot`. -/
def evapHotT : Transition :=
  { source := "liquid", dest := "gas", conditions := ["is_hot"], before := ["bh"], after := ["ah"] }

/-- Worked example: the `melt` event with its single candidate filed under
`solid`. -/
def meltEvent : Event := { name := "melt", transitions := [("solid", [meltT])] }

/-- Worked example: the `evaporate` event with two candidates filed under
`liquid`, in insertion order. -/
def evapEvent : Event := { name := "evaporate", transitions := [("liquid", [evapColdT, evapHotT])] }

/-- Worked example machine: three states, two events, currently `solid`. -/
def demoMachine : Machine :=
  { states := [("solid", solidSt), ("liquid", liquidSt), ("gas", gasSt)],
    events := [("melt", meltEvent), ("evaporate", evapEvent)],
    current_state := solidSt, model_state := "solid" }

/-- The worked example machine after moving to `liquid`. -/
def liquidMachine : Machine :=
  { demoMachine with current_state := liquidSt, model_state := "liquid" }

/-- Model oracle for the worked examples: `is_hot` is the only guard that
returns true, and nothing raises. -/
def demoEnv : PyModel := { guardVal := fun g => g == "is_hot", raises := fun _ => false }

/-- Model oracle in which the `en_l` enter callback raises. -/
def raiseEnv : PyModel := { guardVal := fun _ => true, raises := fun n => n == "en_l" }

/-- Context at the start of a trigger call on the worked example machine in
state `solid`. -/
def solidCtx : Ctx := { machine := demoMachine, ed_state := solidSt, trace := [] }

/-- Context at the start of a trigger call on the worked example machine in
state `liquid`. -/
def liquidCtx : Ctx := { machine := liquidMachine, ed_state := liquidSt, trace := [] }

theorem runCallbacks_ok (env : PyModel) (names : List String)
    (h : ∀ n ∈ names, env.raises n = false) (s : Ctx) :
    runCallbacks env names s = .ok () { s with trace := s.trace ++ names.map Evt.call } := by
  induction names generalizing s with
  | nil => simp [runCallbacks]
  | cons n rest ih =>
    have hn : env.raises n = false := h n (by simp)
    have hrest : ∀ x ∈ rest, env.raises x = false := fun x hx => h x (by simp [hx])
    simp [runCallbacks, callModel, Ctx.log, hn, ih hrest]

theorem runCallbacks_raise (env : PyModel) (ns1 : List String) (bad : String)
    (ns2 : List String) (h1 : ∀ n ∈ ns1, env.raises n = false)
    (hbad : env.raises bad = true) (s : Ctx) :
    runCallbacks env (ns1 ++ bad :: ns2) s =
      .err (.callbackError bad)
        { s with trace := s.trace ++ ns1.map Evt.call ++ [Evt.call bad] } := by
  induction ns1 generalizing s with
  | nil => simp [runCallbacks, callModel, Ctx.log, hbad]
  | cons n rest ih =>
    have hn : env.raises n = false := h1 n (by simp)
    have hrest : ∀ x ∈ rest, env.raises x = false := fun x hx => h1 x (by simp [hx])
    simp [runCallbacks, callModel, Ctx.log, hn, ih hrest]

theorem checkConditions_spec (env : PyModel) (cs : List String)
    (h : ∀ c ∈ cs, env.raises c = false) (s : Ctx) :
    checkConditions env cs s =
      .ok (cs.all env.guardVal)
        { s with
          trace := s.trace ++ (calledGuards env cs).map (fun c => Evt.guard c (env.guardVal c)) } := by
  induction cs generalizing s with
  | nil => simp [checkConditions, calledGuards]
  | cons c rest ih =>
    have hc : env.raises c = false := h c (by simp)
    have hrest : ∀ x ∈ rest, env.raises x = false := fun x hx => h x (by simp [hx])
    cases hg : env.guardVal c with
    | false => simp [checkConditions, calledGuards, Ctx.log, hc, hg]
    | true => simp [checkConditions, calledGuards, Ctx.log, hc, hg, ih hrest]

theorem calledGuards_all_true (env : PyModel) (cs : List String)
    (h : ∀ c ∈ cs, env.guardVal c = true) : calledGuards env cs = cs := by
  induction cs with
  | nil => simp [calledGuards]
  | cons c rest ih =>
    have hc : env.guardVal c = true := h c (by simp)
    have hrest : ∀ x ∈ rest, env.guardVal x = true := fun x hx => h x (by simp [hx])
    simp [calledGuards, hc, ih hrest]

theorem execute_ok_spec (env : PyModel) (t : Transition) (src dst : State) (s : Ctx)
    (hg : ∀ c ∈ t.conditions, env.guardVal c = true ∧ env.raises c = false)
    (hb : ∀ n ∈ t.before, env.raises n = false)
    (hsrc : s.machine.states.lookup t.source = some src)
    (hx : ∀ n ∈ src.on_exit, env.raises n = false)
    (hdst : s.machine.states.lookup t.dest = some dst)
    (he : ∀ n ∈ dst.on_enter, env.raises n = false)
    (ha : ∀ n ∈ t.after, env.raises n = false) :
    Transition.execute env t s =
      .ok true
        { machine := { s.machine with current_state := dst, model_state := dst.name },
          ed_state := dst,
          trace := s.trace ++ execTrace t src dst } := by
  have hg1 : ∀ c ∈ t.conditions, env.raises c = false := fun c hc => (hg c hc).2
  have hg2 : ∀ c ∈ t.conditions, env.guardVal c = true := fun c hc => (hg c hc).1
  have hall : t.conditions.all env.guardVal = true := by
    rw [List.all_eq_true]; exact hg2
  have hmap : t.conditions.map (fun c => Evt.guard c (env.guardVal c)) =
      t.conditions.map (fun c => Evt.guard c true) :=
    List.map_congr_left (fun c hc => by rw [hg2 c hc])
  simp [Transition.execute, checkConditions_spec env t.conditions hg1, hall,
    calledGuards_all_true env t.conditions hg2, hmap,
    runCallbacks_ok env t.before hb, getStateM, Machine.get_state, lookupState, hsrc,
    State.exit, runCallbacks_ok env src.on_exit hx, setStateM, Machine.set_state,
    updateED, hdst, State.enter, runCallbacks_ok env dst.on_enter he,
    runCallbacks_ok env t.after ha, execTrace, Ctx.log]

theorem execute_fail_spec (env : PyModel) (t : Transition)
    (h1 : ∀ c ∈ t.conditions, env.raises c = false)
    (h2 : t.conditions.all env.guardVal = false) (s : Ctx) :
    Transition.execute env t s = .ok false { s with trace := s.trace ++ failTrace env t } := by
  simp [Transition.execute, checkConditions_spec env t.conditions h1, h2, failTrace]

theorem execute_enter_raise_spec (env : PyModel) (t : Transition) (src dst : State)
    (es1 : List String) (bad : String) (es2 : List String) (s : Ctx)
    (hg : ∀ c ∈ t.conditions, env.guardVal c = true ∧ env.raises c = false)
    (hb : ∀ n ∈ t.before, env.raises n = false)
    (hsrc : s.machine.states.lookup t.source = some src)
    (hx : ∀ n ∈ src.on_exit, env.raises n = false)
    (hdst : s.machine.states.lookup t.dest = some dst)
    (hsplit : dst.on_enter = es1 ++ bad :: es2)
    (h1 : ∀ n ∈ es1, env.raises n = false)
    (hbad : env.raises bad = true) :
    Transition.execute env t s =
      .err (.callbackError bad)
        { machine := { s.machine with current_state := dst, model_state := dst.name },
          ed_state := dst,
          trace := s.trace ++ t.conditions.map (fun c => Evt.guard c true) ++
            t.before.map Evt.call ++ src.on_exit.map Evt.call ++
            [Evt.setSt dst.name, Evt.update dst.name] ++
            es1.map Evt.call ++ [Evt.call bad] } := by
  have hg1 : ∀ c ∈ t.conditions, env.raises c = false := fun c hc => (hg c hc).2
  have hg2 : ∀ c ∈ t.conditions, env.guardVal c = true := fun c hc => (hg c hc).1
  have hall : t.conditions.all env.guardVal = true := by
    rw [List.all_eq_true]; exact hg2
  have hmap : t.conditions.map (fun c => Evt.guard c (env.guardVal c)) =
      t.conditions.map (fun c => Evt.guard c true) :=
    List.map_congr_left (fun c hc => by rw [hg2 c hc])
  simp [Transition.execute, checkConditions_spec env t.conditions hg1, hall,
    calledGuards_all_true env t.conditions hg2, hmap,
    runCallbacks_ok env t.before hb, getStateM, Machine.get_state, lookupState, hsrc,
    State.exit, runCallbacks_ok env src.on_exit hx, setStateM, Machine.set_state,
    updateED, hdst, State.enter, hsplit, runCallbacks_raise env es1 bad es2 h1 hbad,
    Ctx.log]

theorem execute_after_raise_spec (env : PyModel) (t : Transition) (src dst : State)
    (as1 : List String) (bad : String) (as2 : List String) (s : Ctx)
    (hg : ∀ c ∈ t.conditions, env.guardVal c = true ∧ env.raises c = false)
    (hb : ∀ n ∈ t.before, env.raises n = false)
    (hsrc : s.machine.states.lookup t.source = some src)
    (hx : ∀ n ∈ src.on_exit, env.raises n = false)
    (hdst : s.machine.states.lookup t.dest = some dst)
    (he : ∀ n ∈ dst.on_enter, env.raises n = false)
    (hsplit : t.after = as1 ++ bad :: as2)
    (h1 : ∀ n ∈ as1, env.raises n = false)
    (hbad : env.raises bad = true) :
    Transition.execute env t s =
      .err (.callbackError bad)
        { machine := { s.machine with current_state := dst, model_state := dst.name },
          ed_state := dst,
          trace := s.trace ++ t.conditions.map (fun c => Evt.guard c true) ++
            t.before.map Evt.call ++ src.on_exit.map Evt.call ++
            [Evt.setSt dst.name, Evt.update dst.name] ++
            dst.on_enter.map Evt.call ++ as1.map Evt.call ++ [Evt.call bad] } := by
  have hg1 : ∀ c ∈ t.conditions, env.raises c = false := fun c hc => (hg c hc).2
  have hg2 : ∀ c ∈ t.conditions, env.guardVal c = true := fun c hc => (hg c hc).1
  have hall : t.conditions.all env.guardVal = true := by
    rw [List.all_eq_true]; exact hg2
  have hmap : t.conditions.map (fun c => Evt.guard c (env.guardVal c)) =
      t.conditions.map (fun c => Evt.guard c true) :=
    List.map_congr_left (fun c hc => by rw [hg2 c hc])
  simp [Transition.execute, checkConditions_spec env t.conditions hg1, hall,
    calledGuards_all_true env t.conditions hg2, hmap,
    runCallbacks_ok env t.before hb, getStateM, Machine.get_state, lookupState, hsrc,
    State.exit, runCallbacks_ok env src.on_exit hx, setStateM, Machine.set_state,
    updateED, hdst, State.enter, runCallbacks_ok env dst.on_enter he,
    hsplit, runCallbacks_raise env as1 bad as2 h1 hbad, Ctx.log]

theorem tryTransitions_all_fail (env : PyModel) (ts : List Transition)
    (h : ∀ t ∈ ts, guardsFail env t) (s : Ctx) :
    tryTransitions env ts s = .ok false { s with trace := s.trace ++ failTraces env ts } := by
  induction ts generalizing s with
  | nil => simp [tryTransitions, failTraces]
  | cons t rest ih =>
    have ht : guardsFail env t := h t (by simp)
    have hrest : ∀ x ∈ rest, guardsFail env x := fun x hx => h x (by simp [hx])
    simp [tryTransitions, execute_fail_spec env t ht.1 ht.2, ih hrest, failTraces]

theorem tryTransitions_skip_fails (env : PyModel) (ts1 : List Transition)
    (h : ∀ t ∈ ts1, guardsFail env t) (rest : List Transition) (s : Ctx) :
    tryTransitions env (ts1 ++ rest) s =
      tryTransitions env rest { s with trace := s.trace ++ failTraces env ts1 } := by
  induction ts1 generalizing s with
  | nil => simp [failTraces]
  | cons t ts ih =>
    have ht : guardsFail env t := h t (by simp)
    have hts : ∀ x ∈ ts, guardsFail env x := fun x hx => h x (by simp [hx])
    simp [tryTransitions, execute_fail_spec env t ht.1 ht.2, ih hts, failTraces]

theorem lookup_name_of_wf (l : List (String × State))
    (hwf : ∀ p ∈ l, (Prod.snd p).name = Prod.fst p) (k : String) (st : State)
    (h : l.lookup k = some st) : st.name = k := by
  induction l with
  | nil => simp [List.lookup] at h
  | cons p rest ih =>
    rw [List.lookup] at h
    by_cases hk : k = p.1
    · have : (k == p.1) = true := by simp [hk]
      rw [this] at h
      have hp : p.2.name = p.1 := hwf p (by simp)
      cases h
      rw [hp, hk]
    · have : (k == p.1) = false := by simp [hk]
      rw [this] at h
      exact ih (fun q hq => hwf q (by simp [hq])) h

theorem dictInsert_lookup {α : Type} (d : List (String × α)) (k : String) (v : α)
    (n : String) :
    (dictInsert d k v).lookup n = if n = k then some v else d.lookup n := by
  induction d with
  | nil =>
    by_cases h : n = k
    · simp [dictInsert, List.lookup, h]
    · have hb : (n == k) = false := by simp [h]
      simp [dictInsert, List.lookup, h, hb]
  | cons p rest ih =>
    obtain ⟨k1, v1⟩ := p
    by_cases hpk : k1 = k
    · subst hpk
      by_cases hn : n = k1
      · simp [dictInsert, List.lookup, hn]
      · have hnb : (n == k1) = false := by simp [hn]
        simp [dictInsert, List.lookup, hn, hnb]
    · have hb : (k1 == k) = false := by simp [hpk]
      by_cases hn : n = k1
      · have hnk : ¬n = k := by rw [hn]; exact hpk
        have hnb : (n == k1) = true := by simp [hn]
        simp [dictInsert, List.lookup, hb, hnb, hnk]
      · have hnb : (n == k1) = false := by simp [hn]
        simp [dictInsert, List.lookup, hb, hnb, ih]

theorem dictAppend_lookup (d : List (String × List Transition)) (k : String)
    (t : Transition) (n : String) :
    (dictAppend d k t).lookup n =
      if n = k then some (((d.lookup k).getD []) ++ [t]) else d.lookup n := by
  induction d with
  | nil =>
    by_cases h : n = k
    · simp [dictAppend, List.lookup, h]
    · have hb : (n == k) = false := by simp [h]
      simp [dictAppend, List.lookup, h, hb]
  | cons p rest ih =>
    obtain ⟨k1, v1⟩ := p
    by_cases hpk : k1 = k
    · subst hpk
      by_cases hn : n = k1
      · simp [dictAppend, List.lookup, hn]
      · have hnb : (n == k1) = false := by simp [hn]
        simp [dictAppend, List.lookup, hn, hnb]
    · have hb : (k1 == k) = false := by simp [hpk]
      by_cases hn : n = k1
      · have hnk : ¬n = k := by rw [hn]; exact hpk
        have hnb : (n == k1) = true := by simp [hn]
        have hkk : ¬k = k1 := fun hh => hpk hh.symm
        have hkb : (k == k1) = false := by simp [hkk]
        simp [dictAppend, List.lookup, hb, hnb, hnk, hkb]
      · have hnb : (n == k1) = false := by simp [hn]
        by_cases hkn : k = k1
        · exact absurd hkn.symm hpk
        · have hkb : (k == k1) = false := by simp [hkn]
          simp [dictAppend, List.lookup, hb, hnb, hkb, ih]

theorem add_transition_fold_transitionsFor (ts : List Transition) (e : Event) (n : String) :
    (ts.foldl Event.add_transition e).transitionsFor n =
      e.transitionsFor n ++ ts.filter (fun t => t.source == n) := by
  induction ts generalizing e with
  | nil => simp
  | cons t rest ih =>
    have hstep : ∀ e' : Event, (e'.add_transition t).transitionsFor n =
        e'.transitionsFor n ++ (if t.source == n then [t] else []) := by
      intro e'
      by_cases h : t.source = n
      · subst h
        simp [Event.add_transition, Event.transitionsFor, dictAppend_lookup]
      · have hnb : ¬n = t.source := fun hh => h hh.symm
        have hsb : (t.source == n) = false := by simp [h]
        simp [Event.add_transition, Event.transitionsFor, dictAppend_lookup, hnb, hsb]
    by_cases h : t.source = n
    · have hsb : (t.source == n) = true := by simp [h]
      simp [List.foldl_cons, ih, hstep, List.filter_cons, hsb]
    · have hsb : (t.source == n) = false := by simp [h]
      simp [List.foldl_cons, ih, hstep, List.filter_cons, hsb]

theorem execute_ok_machine (env : PyModel) (t : Transition) (src dst : State)
    (hg : ∀ c ∈ t.conditions, env.guardVal c = true ∧ env.raises c = false)
    (hb : ∀ n ∈ t.before, env.raises n = false) (m : Machine)
    (hsrc : m.states.lookup t.source = some src)
    (hx : ∀ n ∈ src.on_exit, env.raises n = false)
    (hdst : m.states.lookup t.dest = some dst)
    (he : ∀ n ∈ dst.on_enter, env.raises n = false)
    (ha : ∀ n ∈ t.after, env.raises n = false) (ed : State) (tr : List Evt) :
    Transition.execute env t { machine := m, ed_state := ed, trace := tr } =
      .ok true
        { machine := { m with current_state := dst, model_state := dst.name },
          ed_state := dst, trace := tr ++ execTrace t src dst } :=
  execute_ok_spec env t src dst { machine := m, ed_state := ed, trace := tr }
    hg hb hsrc hx hdst he ha

theorem execute_enter_raise_machine (env : PyModel) (t : Transition) (src dst : State)
    (es1 : List String) (bad : String) (es2 : List String)
    (hg : ∀ c ∈ t.conditions, env.guardVal c = true ∧ env.raises c = false)
    (hb : ∀ n ∈ t.before, env.raises n = false) (m : Machine)
    (hsrc : m.states.lookup t.source = some src)
    (hx : ∀ n ∈ src.on_exit, env.raises n = false)
    (hdst : m.states.lookup t.dest = some dst)
    (hsplit : dst.on_enter = es1 ++ bad :: es2)
    (h1 : ∀ n ∈ es1, env.raises n = false)
    (hbad : env.raises bad = true) (ed : State) (tr : List Evt) :
    Transition.execute env t { machine := m, ed_state := ed, trace := tr } =
      .err (.callbackError bad)
        { machine := { m with current_state := dst, model_state := dst.name },
          ed_state := dst,
          trace := tr ++ t.conditions.map (fun c => Evt.guard c true) ++
            t.before.map Evt.call ++ src.on_exit.map Evt.call ++
            [Evt.setSt dst.name, Evt.update dst.name] ++
            es1.map Evt.call ++ [Evt.call bad] } :=
  execute_enter_raise_spec env t src dst es1 bad es2
    { machine := m, ed_state := ed, trace := tr } hg hb hsrc hx hdst hsplit h1 hbad

theorem execute_after_raise_machine (env : PyModel) (t : Transition) (src dst : State)
    (as1 : List String) (bad : String) (as2 : List String)
    (hg : ∀ c ∈ t.conditions, env.guardVal c = true ∧ env.raises c = false)
    (hb : ∀ n ∈ t.before, env.raises n = false) (m : Machine)
    (hsrc : m.states.lookup t.source = some src)
    (hx : ∀ n ∈ src.on_exit, env.raises n = false)
    (hdst : m.states.lookup t.dest = some dst)
    (he : ∀ n ∈ dst.on_enter, env.raises n = false)
    (hsplit : t.after = as1 ++ bad :: as2)
    (h1 : ∀ n ∈ as1, env.raises n = false)
    (hbad : env.raises bad = true) (ed : State) (tr : List Evt) :
    Transition.execute env t { machine := m, ed_state := ed, trace := tr } =
      .err (.callbackError bad)
        { machine := { m with current_state := dst, model_state := dst.name },
          ed_state := dst,
          trace := tr ++ t.conditions.map (fun c => Evt.guard c true) ++
            t.before.map Evt.call ++ src.on_exit.map Evt.call ++
            [Evt.setSt dst.name, Evt.update dst.name] ++
            dst.on_enter.map Evt.call ++ as1.map Evt.call ++ [Evt.call bad] } :=
  execute_after_raise_spec env t src dst as1 bad as2
    { machine := m, ed_state := ed, trace := tr } hg hb hsrc hx hdst he hsplit h1 hbad

theorem calledGuards_firstFalse (env : PyModel) (cs : List String)
    (h : cs.all env.guardVal = false) :
    ∃ gs1 g gs2, cs = gs1 ++ g :: gs2 ∧ (∀ c ∈ gs1, env.guardVal c = true) ∧
      env.guardVal g = false ∧ calledGuards env cs = gs1 ++ [g] := by
  induction cs with
  | nil => simp at h
  | cons c rest ih =>
    cases hg : env.guardVal c with
    | false => exact ⟨[], c, rest, rfl, by simp, hg, by simp [calledGuards, hg]⟩
    | true =>
      have h' : rest.all env.guardVal = false := by
        rw [List.all_cons, hg] at h; simpa using h
      obtain ⟨gs1, g, gs2, hdec, hall, hgf, hcall⟩ := ih h'
      refine ⟨c :: gs1, g, gs2, by simp [hdec], ?_, hgf, by simp [calledGuards, hg, hcall]⟩
      intro x hx
      rcases List.mem_cons.mp hx with hx | hx
      · rw [hx]; exact hg
      · exact hall x hx

theorem dictInsert_wf (d : List (String × State)) (st : State)
    (h : ∀ p ∈ d, (Prod.snd p).name = Prod.fst p) :
    ∀ p ∈ dictInsert d st.name st, (Prod.snd p).name = Prod.fst p := by
  induction d with
  | nil =>
    intro p hp
    simp [dictInsert] at hp
    rw [hp]
  | cons q rest ih =>
    obtain ⟨k1, v1⟩ := q
    intro p hp
    by_cases hk : k1 = st.name
    · have hb : (k1 == st.name) = true := by simp [hk]
      simp [dictInsert, hb] at hp
      rcases hp with hp | hp
      · rw [hp]
      · exact h p (by simp [hp])
    · have hb : (k1 == st.name) = false := by simp [hk]
      simp [dictInsert, hb] at hp
      rcases hp with hp | hp
      · rw [hp]; exact h (k1, v1) (by simp)
      · exact ih (fun q hq => h q (by simp [hq])) p hp

theorem buildStates_wf_aux (descs : List (String ⊕ State)) (d : List (String × State))
    (h : ∀ p ∈ d, (Prod.snd p).name = Prod.fst p) :
    ∀ p ∈ descs.foldl
      (fun d sd =>
        let st : State :=
          match sd with
          | .inl n => { name := n, on_enter := [], on_exit := [] }
          | .inr s => s
        dictInsert d st.name st) d,
      (Prod.snd p).name = Prod.fst p := by
  induction descs generalizing d with
  | nil => exact h
  | cons sd rest ih =>
    exact ih _ (dictInsert_wf d _ h)

theorem buildStates_wf (descs : List (String ⊕ State)) :
    ∀ p ∈ buildStates descs, (Prod.snd p).name = Prod.fst p :=
  buildStates_wf_aux descs [] (by simp)

theorem add_transition_frame (m : Machine) (trigger : String)
    (source : String ⊕ List String) (dest : String)
    (c b a : Option (String ⊕ List String)) :
    (m.add_transition trigger source dest c b a).states = m.states ∧
    (m.add_transition trigger source dest c b a).current_state = m.current_state ∧
    (m.add_transition trigger source dest c b a).model_state = m.model_state :=
  ⟨rfl, rfl, rfl⟩

theorem foldl_add_transition_frame (tds : List TransDesc) (m : Machine) :
    (tds.foldl
      (fun m td => m.add_transition td.trigger td.source td.dest td.conditions td.before td.after)
      m).states = m.states ∧
    (tds.foldl
      (fun m td => m.add_transition td.trigger td.source td.dest td.conditions td.before td.after)
      m).current_state = m.current_state ∧
    (tds.foldl
      (fun m td => m.add_transition td.trigger td.source td.dest td.conditions td.before td.after)
      m).model_state = m.model_state := by
  induction tds generalizing m with
  | nil => exact ⟨rfl, rfl, rfl⟩
  | cons td rest ih => exact ih _

theorem init_ok_spec (descs : List (String ⊕ State)) (S : String) (tds : List TransDesc)
    (m : Machine) (h : Machine.init descs (.inl S) tds = .ok m) :
    m.model_state = S ∧ m.current_state.name = S := by
  cases hlk : (buildStates descs).lookup S with
  | none => simp [Machine.init, lookupState, hlk] at h
  | some st =>
    have hname : st.name = S :=
      lookup_name_of_wf (buildStates descs) (buildStates_wf descs) S st hlk
    simp [Machine.init, lookupState, hlk] at h
    obtain ⟨hs, hc, hm⟩ := foldl_add_transition_frame tds
      { states := buildStates descs, events := [], current_state := st, model_state := st.name }
    rw [← h]
    exact ⟨by rw [hm]; exact hname, by rw [hc]; exact hname⟩

/-- C1: for every Transition whose guards all return true (with the source and
destination states registered and every involved callback returning
normally), `Transition.execute` performs exactly this sequence in order: all
before-callbacks in registration order, then the exit-callbacks of the source
state in order, then the machine's current state is set to the destination
and the destination's name is mirrored onto the model's `state` attribute,
then the `EventData.state` field is refreshed to the new current state exactly
once, then the destination's enter-callbacks in order, then all
after-callbacks in registration order, and it reports success (`true`). -/
theorem transition_execute_lifecycle_order (env : PyModel) (t : Transition)
    (src dst : State) (s : Ctx)
    (hg : ∀ c ∈ t.conditions, env.guardVal c = true ∧ env.raises c = false)
    (hb : ∀ n ∈ t.before, env.raises n = false)
    (hsrc : s.machine.states.lookup t.source = some src)
    (hx : ∀ n ∈ src.on_exit, env.raises n = false)
    (hdst : s.machine.states.lookup t.dest = some dst)
    (he : ∀ n ∈ dst.on_enter, env.raises n = false)
    (ha : ∀ n ∈ t.after, env.raises n = false) :
    Transition.execute env t s =
      .ok true
        { machine := { s.machine with current_state := dst, model_state := dst.name },
          ed_state := dst,
          trace := s.trace ++ execTrace t src dst } :=
  execute_ok_spec env t src dst s hg hb hsrc hx hdst he ha

/-- Witness for C1: the guarded `evaporate` transition from `liquid` to `gas`
on the worked example machine runs the full lifecycle and reports success. -/
theorem transition_execute_lifecycle_order_witness :
    Transition.execute demoEnv evapHotT liquidCtx =
      .ok true
        { machine := { liquidCtx.machine with current_state := gasSt, model_state := gasSt.name },
          ed_state := gasSt,
          trace := liquidCtx.trace ++ execTrace evapHotT liquidSt gasSt } :=
  transition_execute_lifecycle_order demoEnv evapHotT liquidSt gasSt liquidCtx
    (by decide) (by decide) (by decide) (by decide) (by decide) (by decide) (by decide)

/-- C2: `Event.trigger` builds exactly one `EventData` and tries the filed
candidates in the order they were added.  First part: with the candidates
splitting as failing prefix, first succeeding transition, arbitrary suffix,
the trigger reports success, only the prefix's guard calls and the succeeding
transition's full lifecycle appear in the trace (so the suffix and the
prefix's before/exit/enter/after callbacks never run), and the machine moves
to the succeeding transition's destination.  Second part: when every filed
candidate fails its guards, the trigger reports `false`, raises no error, and
the machine's state is unchanged. -/
theorem event_trigger_first_success_wins (env : PyModel) (e : Event) (s : Ctx)
    (ts1 : List Transition) (t : Transition) (ts2 : List Transition) (src dst : State) :
    (e.transitions.lookup s.machine.current_state.name = some (ts1 ++ t :: ts2) →
      (∀ t1 ∈ ts1, guardsFail env t1) →
      (∀ c ∈ t.conditions, env.guardVal c = true ∧ env.raises c = false) →
      (∀ n ∈ t.before, env.raises n = false) →
      s.machine.states.lookup t.source = some src →
      (∀ n ∈ src.on_exit, env.raises n = false) →
      s.machine.states.lookup t.dest = some dst →
      (∀ n ∈ dst.on_enter, env.raises n = false) →
      (∀ n ∈ t.after, env.raises n = false) →
      Event.trigger env e s =
        .ok true
          { machine := { s.machine with current_state := dst, model_state := dst.name },
            ed_state := dst,
            trace := s.trace ++ [Evt.newED s.machine.current_state.name] ++
              failTraces env ts1 ++ execTrace t src dst }) ∧
    (∀ ts : List Transition,
      e.transitions.lookup s.machine.current_state.name = some ts →
      (∀ t1 ∈ ts, guardsFail env t1) →
      Event.trigger env e s =
        .ok false
          { machine := s.machine, ed_state := s.machine.current_state,
            trace := s.trace ++ [Evt.newED s.machine.current_state.name] ++
              failTraces env ts }) := by
  constructor
  · intro hlookup hfail hg hb hsrc hx hdst he ha
    simp [Event.trigger, hlookup, Ctx.log, tryTransitions_skip_fails env ts1 hfail,
      tryTransitions, execute_ok_machine env t src dst hg hb s.machine hsrc hx hdst he ha]
  · intro ts hlookup hfail
    simp [Event.trigger, hlookup, Ctx.log, tryTransitions_all_fail env ts hfail]

/-- Witness for C2: on the worked example, `evaporate` from `liquid` has two
candidates; the first fails its `is_cold` guard and the second (guarded by
`is_hot`) runs its full lifecycle, so the trigger reports success with only
the first candidate's guard call in the trace. -/
theorem event_trigger_first_success_wins_witness :
    Event.trigger demoEnv evapEvent liquidCtx =
      .ok true
        { machine := { liquidCtx.machine with current_state := gasSt, model_state := gasSt.name },
          ed_state := gasSt,
          trace := liquidCtx.trace ++ [Evt.newED liquidCtx.machine.current_state.name] ++
            failTraces demoEnv [evapColdT] ++ execTrace evapHotT liquidSt gasSt } :=
  (event_trigger_first_success_wins demoEnv evapEvent liquidCtx
      [evapColdT] evapHotT [] liquidSt gasSt).1
    (by decide) (by decide) (by decide) (by decide) (by decide) (by decide) (by decide)
    (by decide) (by decide)

/-- C3: triggering an event whose `transitions` mapping has no entry for the
current state's name raises `MachineError` and returns the context completely
unchanged: no `EventData` is built, no callback runs, and neither the
machine's current state nor the model's `state` attribute moves. -/
theorem event_trigger_invalid_raises (env : PyModel) (e : Event) (s : Ctx)
    (h : e.transitions.lookup s.machine.current_state.name = none) :
    Event.trigger env e s =
      .err (.machineError ("Cannot trigger event " ++ e.name ++ " from state " ++
        s.machine.current_state.name)) s := by
  simp [Event.trigger, h]

/-- Witness for C3: `melt` has no candidates filed under `liquid`, so
triggering it from `liquid` raises `MachineError` and leaves the context
untouched. -/
theorem event_trigger_invalid_raises_witness :
    Event.trigger demoEnv meltEvent liquidCtx =
      .err (.machineError ("Cannot trigger event " ++ meltEvent.name ++ " from state " ++
        liquidCtx.machine.current_state.name)) liquidCtx :=
  event_trigger_invalid_raises demoEnv meltEvent liquidCtx (by decide)

/-- C4: guard evaluation is short-circuiting.  When some guard returns false
(and no guard raises), `Transition.execute` returns `false` having appended
only guard events to the trace — so no before/exit/enter/after callback runs,
the machine's current state and the model's `state` attribute are unchanged
and the `EventData.state` field is not refreshed — and the guards actually
called are exactly the prefix of true guards together with the first guard
returning false. -/
theorem execute_guard_short_circuit (env : PyModel) (t : Transition) (s : Ctx)
    (h1 : ∀ c ∈ t.conditions, env.raises c = false)
    (h2 : t.conditions.all env.guardVal = false) :
    Transition.execute env t s = .ok false { s with trace := s.trace ++ failTrace env t } ∧
    (∀ ev ∈ failTrace env t, ∃ c r, ev = Evt.guard c r) ∧
    ∃ gs1 g gs2, t.conditions = gs1 ++ g :: gs2 ∧ (∀ c ∈ gs1, env.guardVal c = true) ∧
      env.guardVal g = false ∧ calledGuards env t.conditions = gs1 ++ [g] := by
  refine ⟨execute_fail_spec env t h1 h2 s, ?_, calledGuards_firstFalse env t.conditions h2⟩
  intro ev hev
  rw [failTrace] at hev
  obtain ⟨c, hc, hev⟩ := List.mem_map.mp hev
  exact ⟨c, env.guardVal c, hev.symm⟩

/-- Witness for C4: the `is_cold`-guarded candidate aborts at its guard and
only the guard call is recorded. -/
theorem execute_guard_short_circuit_witness :
    Transition.execute demoEnv evapColdT liquidCtx =
      .ok false { liquidCtx with trace := liquidCtx.trace ++ failTrace demoEnv evapColdT } :=
  (execute_guard_short_circuit demoEnv evapColdT liquidCtx (by decide) (by decide)).1

/-- C5: the state/predicate mirror invariant.  First part: on any machine
whose registry stores each state under its own name, `set_state` with a
registered name `S` succeeds, mirrors `S` onto the model's `state` attribute,
and afterwards `is_state S` is true while `is_state T` is false for every
other `T` — so the invariant is re-established by every `set_state` call.
Second part: the invariant holds immediately after `Machine.__init__` with
initial state `S`.  Third part: it holds after any successful
`Transition.execute` into a registered destination. -/
theorem state_mirror_invariant :
    (∀ (m : Machine) (S : String) (st : State), statesWF m → m.states.lookup S = some st →
      m.set_state (.inl S) = .ok { m with current_state := st, model_state := S } ∧
      ({ m with current_state := st, model_state := S } : Machine).model_state = S ∧
      ({ m with current_state := st, model_state := S } : Machine).is_state S = true ∧
      ∀ T, T ≠ S → ({ m with current_state := st, model_state := S } : Machine).is_state T = false) ∧
    (∀ (descs : List (String ⊕ State)) (S : String) (tds : List TransDesc) (m : Machine),
      Machine.init descs (.inl S) tds = .ok m →
      m.model_state = S ∧ m.is_state S = true ∧ ∀ T, T ≠ S → m.is_state T = false) ∧
    (∀ (env : PyModel) (t : Transition) (src dst : State) (s : Ctx),
      statesWF s.machine →
      (∀ c ∈ t.conditions, env.guardVal c = true ∧ env.raises c = false) →
      (∀ n ∈ t.before, env.raises n = false) →
      s.machine.states.lookup t.source = some src →
      (∀ n ∈ src.on_exit, env.raises n = false) →
      s.machine.states.lookup t.dest = some dst →
      (∀ n ∈ dst.on_enter, env.raises n = false) →
      (∀ n ∈ t.after, env.raises n = false) →
      ∃ s1, Transition.execute env t s = .ok true s1 ∧
        s1.machine.model_state = t.dest ∧ s1.machine.is_state t.dest = true ∧
        ∀ T, T ≠ t.dest → s1.machine.is_state T = false) := by
  refine ⟨?_, ?_, ?_⟩
  · intro m S st hwf hlk
    have hname : st.name = S := lookup_name_of_wf m.states hwf S st hlk
    refine ⟨?_, rfl, ?_, ?_⟩
    · simp [Machine.set_state, Machine.get_state, lookupState, hlk, hname]
    · simp [Machine.is_state, hname]
    · intro T hT
      simp only [Machine.is_state, hname]
      exact beq_eq_false_iff_ne.mpr (fun hh => hT hh.symm)
  · intro descs S tds m h
    obtain ⟨hm, hc⟩ := init_ok_spec descs S tds m h
    refine ⟨hm, by simp [Machine.is_state, hc], ?_⟩
    intro T hT
    simp only [Machine.is_state, hc]
    exact beq_eq_false_iff_ne.mpr (fun hh => hT hh.symm)
  · intro env t src dst s hwf hg hb hsrc hx hdst he ha
    have hname : dst.name = t.dest := lookup_name_of_wf s.machine.states hwf t.dest dst hdst
    refine ⟨_, execute_ok_spec env t src dst s hg hb hsrc hx hdst he ha, ?_, ?_, ?_⟩
    · exact hname
    · simp [Machine.is_state, hname]
    · intro T hT
      simp only [Machine.is_state, hname]
      exact beq_eq_false_iff_ne.mpr (fun hh => hT hh.symm)

/-- Witness for C5: setting the worked example machine's state to `liquid`
mirrors `liquid` onto the model, makes `is_liquid` true and `is_solid`
false. -/
theorem state_mirror_invariant_witness :
    demoMachine.set_state (.inl "liquid") =
      .ok { demoMachine with current_state := liquidSt, model_state := "liquid" } ∧
    ({ demoMachine with current_state := liquidSt, model_state := "liquid" } : Machine).is_state
      "liquid" = true ∧
    ({ demoMachine with current_state := liquidSt, model_state := "liquid" } : Machine).is_state
      "solid" = false := by
  have h := state_mirror_invariant.1 demoMachine "liquid" liquidSt (by decide) (by decide)
  exact ⟨h.1, h.2.2.1, h.2.2.2 "solid" (by decide)⟩

/-- C8: a callback failure after the destination state has been set leaves
the machine in the intermediate configuration, and the error propagates
unmodified through `Event.trigger` to the caller.  First part: a failing
enter-callback of the destination leaves the machine's current state and the
model's `state` attribute already pointing at the destination.  Second part:
the same for a failing after-callback (the other position after the source
has been exited and the destination set). -/
theorem failing_enter_leaves_dest_state (env : PyModel) (e : Event) (t : Transition)
    (src dst : State) (s : Ctx)
    (hlookup : e.transitions.lookup s.machine.current_state.name = some [t])
    (hg : ∀ c ∈ t.conditions, env.guardVal c = true ∧ env.raises c = false)
    (hb : ∀ n ∈ t.before, env.raises n = false)
    (hsrc : s.machine.states.lookup t.source = some src)
    (hx : ∀ n ∈ src.on_exit, env.raises n = false)
    (hdst : s.machine.states.lookup t.dest = some dst) :
    (∀ es1 bad es2, dst.on_enter = es1 ++ bad :: es2 →
      (∀ n ∈ es1, env.raises n = false) → env.raises bad = true →
      Event.trigger env e s =
        .err (.callbackError bad)
          { machine := { s.machine with current_state := dst, model_state := dst.name },
            ed_state := dst,
            trace := s.trace ++ [Evt.newED s.machine.current_state.name] ++
              t.conditions.map (fun c => Evt.guard c true) ++ t.before.map Evt.call ++
              src.on_exit.map Evt.call ++ [Evt.setSt dst.name, Evt.update dst.name] ++
              es1.map Evt.call ++ [Evt.call bad] }) ∧
    (∀ as1 bad as2, (∀ n ∈ dst.on_enter, env.raises n = false) →
      t.after = as1 ++ bad :: as2 → (∀ n ∈ as1, env.raises n = false) →
      env.raises bad = true →
      Event.trigger env e s =
        .err (.callbackError bad)
          { machine := { s.machine with current_state := dst, model_state := dst.name },
            ed_state := dst,
            trace := s.trace ++ [Evt.newED s.machine.current_state.name] ++
              t.conditions.map (fun c => Evt.guard c true) ++ t.before.map Evt.call ++
              src.on_exit.map Evt.call ++ [Evt.setSt dst.name, Evt.update dst.name] ++
              dst.on_enter.map Evt.call ++ as1.map Evt.call ++ [Evt.call bad] }) := by
  constructor
  · intro es1 bad es2 hsplit h1 hbad
    simp [Event.trigger, hlookup, Ctx.log, tryTransitions,
      execute_enter_raise_machine env t src dst es1 bad es2 hg hb s.machine hsrc hx hdst
        hsplit h1 hbad]
  · intro as1 bad as2 he hsplit h1 hbad
    simp [Event.trigger, hlookup, Ctx.log, tryTransitions,
      execute_after_raise_machine env t src dst as1 bad as2 hg hb s.machine hsrc hx hdst he
        hsplit h1 hbad]

/-- Witness for C8: with the `en_l` enter callback raising, triggering `melt`
from `solid` surfaces the callback's error while the machine and the model's
`state` attribute already point at `liquid`. -/
theorem failing_enter_leaves_dest_state_witness :
    Event.trigger raiseEnv meltEvent solidCtx =
      .err (.callbackError "en_l")
        { machine := { solidCtx.machine with current_state := liquidSt, model_state := liquidSt.name },
          ed_state := liquidSt,
          trace := solidCtx.trace ++ [Evt.newED solidCtx.machine.current_state.name] ++
            meltT.conditions.map (fun c => Evt.guard c true) ++ meltT.before.map Evt.call ++
            solidSt.on_exit.map Evt.call ++ [Evt.setSt liquidSt.name, Evt.update liquidSt.name] ++
            ([] : List String).map Evt.call ++ [Evt.call "en_l"] } :=
  (failing_enter_leaves_dest_state raiseEnv meltEvent meltT solidSt liquidSt solidCtx
      (by decide) (by decide) (by decide) (by decide) (by decide) (by decide)).1
    [] "en_l" [] (by decide) (by decide) (by decide)

/-- C9: `Machine.add_transition` source resolution and filing.  First part:
the wildcard source expands to exactly one new Transition per state name
registered at the moment of the call (in registry order) and no other.
Second part: a non-wildcard string source yields exactly one new Transition
for that name.  Third part: for every source-state name, the transitions the
trigger's event has filed under that name afterwards are exactly those filed
before followed by the newly created ones whose source is that name. -/
theorem add_transition_wildcard_expansion (m : Machine) (trigger dest : String)
    (c b a : Option (String ⊕ List String)) :
    (newTransitions m (.inl "*") dest c b a =
      (m.states.map Prod.fst).map (fun v => Transition.make v dest c b a)) ∧
    (∀ v : String, (v == "*") = false →
      newTransitions m (.inl v) dest c b a = [Transition.make v dest c b a]) ∧
    (∀ (source : String ⊕ List String) (n : String),
      (m.add_transition trigger source dest c b a).eventTransitionsFor trigger n =
        m.eventTransitionsFor trigger n ++
          (newTransitions m source dest c b a).filter (fun t => t.source == n)) := by
  refine ⟨?_, ?_, ?_⟩
  · simp [newTransitions, resolveSource]
  · intro v hv
    simp [newTransitions, resolveSource, hv]
  · intro source n
    cases he : m.events.lookup trigger with
    | none =>
      have hfold := add_transition_fold_transitionsFor (newTransitions m source dest c b a)
        { name := trigger, transitions := [] } n
      have hempty : ({ name := trigger, transitions := [] } : Event).transitionsFor n = [] := rfl
      rw [hempty] at hfold
      simp [Machine.add_transition, he, Machine.eventTransitionsFor, dictInsert_lookup, hfold]
    | some e =>
      simp [Machine.add_transition, he, Machine.eventTransitionsFor, dictInsert_lookup,
        add_transition_fold_transitionsFor]

/-- Witness for C9: adding a wildcard `freeze` transition to the worked
example machine creates one Transition per registered state name, a
non-wildcard source creates exactly one, and the new event files the
`liquid`-sourced Transition under `liquid`. -/
theorem add_transition_wildcard_expansion_witness :
    (newTransitions demoMachine (.inl "*") "solid" none none none =
      (demoMachine.states.map Prod.fst).map (fun v => Transition.make v "solid" none none none)) ∧
    (newTransitions demoMachine (.inl "liquid") "solid" none none none =
      [Transition.make "liquid" "solid" none none none]) ∧
    ((demoMachine.add_transition "freeze" (.inl "*") "solid" none none none).eventTransitionsFor
        "freeze" "liquid" =
      demoMachine.eventTransitionsFor "freeze" "liquid" ++
        (newTransitions demoMachine (.inl "*") "solid" none none none).filter
          (fun t => t.source == "liquid")) := by
  have h := add_transition_wildcard_expansion demoMachine "freeze" "solid" none none none
  exact ⟨h.1, h.2.1 "liquid" (by decide), h.2.2 (.inl "*") "liquid"⟩

/-- C10: reading any attribute whose name has neither first
underscore-separated term `before` or `after` nor prefix `on_enter` or
`on_exit` falls through `Machine.__getattr__` with no default branch and so
yields Python `None` instead of raising `AttributeError`. -/
theorem getattr_fallthrough_none (m : Machine) (name : String)
    (h1 : ((pySplit name).headD "" == "before") = false)
    (h2 : ((pySplit name).headD "" == "after") = false)
    (h3 : pyStartsWith name "on_enter" = false)
    (h4 : pyStartsWith name "on_exit" = false) :
    m.getattrFallback name = .ok .pyNone := by
  cases hsplit : pySplit name with
  | nil =>
    simp [Machine.getattrFallback, hsplit, h3, h4]
  | cons t0 rest =>
    rw [hsplit] at h1 h2
    simp only [List.headD_cons] at h1 h2
    simp [Machine.getattrFallback, hsplit, h1, h2, h3, h4]

/-- Witness for C10: a misspelled configuration lookup such as `stats` on the
worked example machine silently yields `None`. -/
theorem getattr_fallthrough_none_witness :
    demoMachine.getattrFallback "stats" = .ok .pyNone :=
  getattr_fallthrough_none demoMachine "stats" (by decide) (by decide) (by decide) (by decide)

/-- C6 (code defect): the naming-convention route cannot register before or
after callbacks at all — reading `before_melt` or `after_melt` on the machine
raises `AttributeError`, because `Machine.__getattr__` reads `add_callback`
on the `Event` instance and `class Event` defines no such attribute — while
passing the same identifiers directly in the transition descriptor's
before/after lists makes them run in order on a successful transition.  The
claimed equivalence of the two registration routes therefore fails on the
resolver side. -/
theorem resolver_roundtrip_broken :
    demoMachine.getattrFallback "before_melt" = .error (.attributeError "add_callback") ∧
    demoMachine.getattrFallback "after_melt" = .error (.attributeError "add_callback") ∧
    Event.trigger demoEnv meltEvent solidCtx =
      .ok true
        { machine := { demoMachine with current_state := liquidSt, model_state := "liquid" },
          ed_state := liquidSt,
          trace := [Evt.newED "solid", Evt.call "b1", Evt.call "ex_s",
            Evt.setSt "liquid", Evt.update "liquid", Evt.call "en_l", Evt.call "a1"] } :=
  ⟨rfl, rfl, by decide⟩

/-- C7 (code defect): for an unregistered trigger, reading
`before_<trigger>` or `after_<trigger>` raises `MachineError` as claimed; but
for a registered trigger the read raises `AttributeError` instead of
returning a registration function, because `Machine.__getattr__` evaluates
`self.events[name].add_callback` and `class Event` defines no
`add_callback`. -/
theorem getattr_before_after_event_lookup :
    demoMachine.getattrFallback "before_boil" =
      .error (.machineError "Event boil is not registered.") ∧
    demoMachine.getattrFallback "after_boil" =
      .error (.machineError "Event boil is not registered.") ∧
    demoMachine.getattrFallback "before_melt" = .error (.attributeError "add_callback") ∧
    demoMachine.getattrFallback "after_melt" = .error (.attributeError "add_callback") :=
  ⟨rfl, rfl, rfl, rfl⟩
